import Mathlib

/-!
Verification of the nuget-package-readme-mcp-server repository.

This file gives a shallow embedding, in Lean 4, of the parts of the
TypeScript source that the claims of the specification concern:

* `MemoryCache` (src/services/cache.ts): a TTL- and size-bounded in-memory
  key/value store with single-step LRU eviction.  The JavaScript `Map` is
  modelled as an association list in insertion order (`Map.set` of an
  existing key replaces in place, of a fresh key appends); `Date.now()` is
  an explicit `now : Nat` argument; `JSON.stringify(x).length` is supplied
  as an explicit serialization-length function `jsonLen`.
* the error classes (src/types/index.ts) and the error classifier /
  retry executor (src/utils/error-handler.ts).  A JavaScript `throw` of a
  possibly-non-`Error` value is modelled by the `Thrown` type; `async`
  operations are modelled as functions from the attempt index to
  `Except Thrown α`.
* `GitHubApiClient.parseRepositoryUrl` (src/services/github-api.ts): the
  four anchored regular expressions are compiled by hand into string
  functions (the owner group `([^/]+)` can only span up to the first
  slash; the lazy repo group `([^/]+?)` followed by the optional `.git`
  group captures the segment minus a `.git` suffix whenever that leaves
  it nonempty).
* the search post-processing of `searchPackages`
  (src/tools/search-packages.ts), with JavaScript floating-point scores
  modelled as rationals.
* `NuGetApiClient.checkPackageExists` (src/services/nuget-api.ts) and the
  cache-fronted façade `getPackageInfo` (src/tools/get-package-info.ts),
  with the network modelled as explicit oracles for each capability.
-/

set_option maxRecDepth 10000

namespace NugetMcp

/-! ## Cache store (src/services/cache.ts) -/

/-- Model of `CacheEntry<T>`: `data`, `timestamp` (ms), `ttl` (ms). -/
structure CacheEntry (α : Type) where
  data : α
  timestamp : Nat
  ttl : Nat
  deriving Repr, DecidableEq

/-- The mutable state of `MemoryCache`: the `Map` contents (insertion
order) plus the `defaultTtl` and `maxSize` configuration. -/
structure MemoryCache (α : Type) where
  entries : List (String × CacheEntry α)
  defaultTtl : Nat
  maxSize : Nat
  deriving Repr, DecidableEq

/-- Model of `Map.get`: first (and only) binding of `key`. -/
def lookupEntry (l : List (String × CacheEntry α)) (key : String) :
    Option (CacheEntry α) :=
  match l with
  | [] => none
  | (k, e) :: rest => if k = key then some e else lookupEntry rest key

/-- Model of `Map.delete`: remove the binding of `key`, keeping order. -/
def eraseKey (l : List (String × CacheEntry α)) (key : String) :
    List (String × CacheEntry α) :=
  match l with
  | [] => []
  | (k, e) :: rest => if k = key then rest else (k, e) :: eraseKey rest key

/-- Model of `Map.set`: replace in place if the key is present, else append. -/
def mapSet (l : List (String × CacheEntry α)) (key : String)
    (e : CacheEntry α) : List (String × CacheEntry α) :=
  match l with
  | [] => [(key, e)]
  | (k, e') :: rest =>
    if k = key then (k, e) :: rest else (k, e') :: mapSet rest key e

/-- In-place `entry.timestamp = now` on the binding of `key`. -/
def touchKey (l : List (String × CacheEntry α)) (key : String) (now : Nat) :
    List (String × CacheEntry α) :=
  l.map fun kv => if kv.1 = key then (kv.1, { kv.2 with timestamp := now }) else kv

/-- Model of `estimateEntrySize`: `key.length * 2 + JSON.stringify(data).length * 2 + 24`,
with `jsonLen` standing for `JSON.stringify(·).length`. -/
def estimateEntrySize (jsonLen : α → Nat) (key : String) (e : CacheEntry α) :
    Nat :=
  key.length * 2 + jsonLen e.data * 2 + 24

/-- Model of `estimateMemoryUsage`: sum of the entry-size estimates. -/
def estimateMemoryUsage (jsonLen : α → Nat)
    (l : List (String × CacheEntry α)) : Nat :=
  (l.map fun kv => estimateEntrySize jsonLen kv.1 kv.2).sum

/-- Model of `wouldExceedMaxSize`: `currentSize + entrySize > this.maxSize`. -/
def wouldExceedMaxSize (jsonLen : α → Nat) (c : MemoryCache α)
    (key : String) (e : CacheEntry α) : Bool :=
  estimateMemoryUsage jsonLen c.entries + estimateEntrySize jsonLen key e
    > c.maxSize

/-- The scan of `evictLeastRecentlyUsed`: `oldestKey` starts `null`,
`oldestTimestamp` starts at `Date.now()`; an entry replaces the candidate
only when its timestamp is strictly smaller. -/
def findOldestKey (l : List (String × CacheEntry α)) (now : Nat) :
    Option String :=
  (l.foldl
    (fun acc kv => if kv.2.timestamp < acc.2 then (some kv.1, kv.2.timestamp) else acc)
    ((none : Option String), now)).1

/-- Model of `evictLeastRecentlyUsed`: delete the found oldest key, if any. -/
def evictLeastRecentlyUsed (l : List (String × CacheEntry α)) (now : Nat) :
    List (String × CacheEntry α) :=
  match findOldestKey l now with
  | none => l
  | some k => eraseKey l k

/-- The `actualTtl` computation of `set`: `ttl || this.defaultTtl`
(JavaScript `||`, so an explicit `0` also falls back to the default). -/
def actualTtl (c : MemoryCache α) (ttl : Option Nat) : Nat :=
  match ttl with
  | none => c.defaultTtl
  | some t => if t = 0 then c.defaultTtl else t

/-- The entry list after the conditional single eviction step of `set`,
just before the `Map.set`. -/
def postEvictionEntries (jsonLen : α → Nat) (c : MemoryCache α) (now : Nat)
    (key : String) (e : CacheEntry α) : List (String × CacheEntry α) :=
  if wouldExceedMaxSize jsonLen c key e then
    evictLeastRecentlyUsed c.entries now
  else
    c.entries

/-- Model of `MemoryCache.set(key, value, ttl?)`. -/
def MemoryCache.set (jsonLen : α → Nat) (c : MemoryCache α) (now : Nat)
    (key : String) (value : α) (ttl : Option Nat) : MemoryCache α :=
  let entry : CacheEntry α := ⟨value, now, actualTtl c ttl⟩
  { c with entries := mapSet (postEvictionEntries jsonLen c now key entry) key entry }

/-- Model of `MemoryCache.get(key)`: returns the value (if present and fresh) and
the cache state after the call (expired entries are deleted, a hit has
its timestamp refreshed to `now`). -/
def MemoryCache.get (c : MemoryCache α) (now : Nat) (key : String) :
    Option α × MemoryCache α :=
  match lookupEntry c.entries key with
  | none => (none, c)
  | some e =>
    if now - e.timestamp > e.ttl then
      (none, { c with entries := eraseKey c.entries key })
    else
      (some e.data, { c with entries := touchKey c.entries key now })

/-- Length of the `JSON.stringify` image of a string payload containing no characters
that need escaping: the payload plus two quote characters. -/
def jsonLenStr (s : String) : Nat := s.length + 2

/-! ## Error classes (src/types/index.ts)

The class hierarchy is: `PackageNotFoundError`, `VersionNotFoundError`,
`RateLimitError` and `NetworkError` all extend `PackageReadmeMcpError`,
which extends `Error`.  A fetch abort surfaces as an exception whose
`name` is `AbortError`.  Constructor-set fields (`code`, `statusCode`,
`details.retryAfter`) are recovered by the accessor functions below.
Quote marks inside the original message strings are elided. -/

inductive JSError where
  /-- Base `PackageReadmeMcpError(message, code, statusCode?, details?)`. -/
  | mcpError (message code : String) (statusCode : Option Nat)
  /-- Constructor `PackageNotFoundError(packageName)`. -/
  | packageNotFoundError (packageName : String)
  /-- Constructor `VersionNotFoundError(packageName, version)`. -/
  | versionNotFoundError (packageName version : String)
  /-- Constructor `RateLimitError(service, retryAfter?)`. -/
  | rateLimitError (service : String) (retryAfter : Option Int)
  /-- Constructor `NetworkError(message, originalError?)`. -/
  | networkError (message : String)
  /-- Plain JavaScript `Error(message)`. -/
  | plainError (message : String)
  /-- Exception raised by an aborted fetch, with `name = AbortError`. -/
  | abortError
  deriving Repr, DecidableEq

/-- Check `error instanceof PackageReadmeMcpError`. -/
def JSError.isMcpError : JSError → Bool
  | .plainError _ => false
  | .abortError => false
  | _ => true

/-- Check `error instanceof RateLimitError`. -/
def JSError.isRateLimitError : JSError → Bool
  | .rateLimitError _ _ => true
  | _ => false

/-- Check `error instanceof NetworkError`. -/
def JSError.isNetworkError : JSError → Bool
  | .networkError _ => true
  | _ => false

/-- Field `statusCode` (set to 404 by the not-found constructors and to
429 by `RateLimitError`; absent on `NetworkError` and plain errors). -/
def JSError.statusCode : JSError → Option Nat
  | .mcpError _ _ s => s
  | .packageNotFoundError _ => some 404
  | .versionNotFoundError _ _ => some 404
  | .rateLimitError _ _ => some 429
  | .networkError _ => none
  | .plainError _ => none
  | .abortError => none

/-- Field `code` (absent on non-`PackageReadmeMcpError` errors). -/
def JSError.code : JSError → Option String
  | .mcpError _ c _ => some c
  | .packageNotFoundError _ => some "PACKAGE_NOT_FOUND"
  | .versionNotFoundError _ _ => some "VERSION_NOT_FOUND"
  | .rateLimitError _ _ => some "RATE_LIMIT_EXCEEDED"
  | .networkError _ => some "NETWORK_ERROR"
  | .plainError _ => none
  | .abortError => none

/-- Field `message`, as assembled by each constructor. -/
def JSError.message : JSError → String
  | .mcpError m _ _ => m
  | .packageNotFoundError p => "Package " ++ p ++ " not found"
  | .versionNotFoundError p v => "Version " ++ v ++ " of package " ++ p ++ " not found"
  | .rateLimitError s _ => "Rate limit exceeded for " ++ s
  | .networkError m => "Network error: " ++ m
  | .plainError m => m
  | .abortError => "This operation was aborted"

/-- Field `name`. -/
def JSError.name : JSError → String
  | .plainError _ => "Error"
  | .abortError => "AbortError"
  | _ => "PackageReadmeMcpError"

/-- Field `details.retryAfter` of a `RateLimitError`. -/
def JSError.retryAfterDetail : JSError → Option Int
  | .rateLimitError _ r => r
  | _ => none

/-- A JavaScript thrown value: either an `Error` instance or a non-`Error`
value, the latter represented by its `String(value)` image. -/
inductive Thrown where
  | err (e : JSError)
  | raw (s : String)
  deriving Repr, DecidableEq

/-- Evaluate `error instanceof Error ? error : new Error(String(error))`. -/
def Thrown.toError : Thrown → JSError
  | .err e => e
  | .raw s => .plainError s

/-- Evaluate the guard comparing `(error as Error).name` with the string
AbortError (a raw non-`Error` value has no `name` property, so the
comparison is false). -/
def Thrown.isAbortNamed : Thrown → Bool
  | .err e => e.name = "AbortError"
  | .raw _ => false

/-! ## Error classifier (src/utils/error-handler.ts) -/

/-- Check that `p` is a prefix of `l`, character by character. -/
def isPrefixL : List Char → List Char → Bool
  | [], _ => true
  | _ :: _, [] => false
  | a :: as, b :: bs => a = b && isPrefixL as bs

/-- Check that `pat` occurs as a contiguous run inside `l`. -/
def containsSub (l pat : List Char) : Bool :=
  match l with
  | [] => pat.isEmpty
  | _ :: rest => isPrefixL pat l || containsSub rest pat

/-- Evaluate the JavaScript `message.includes(pat)`. -/
def msgContains (msg pat : String) : Bool := containsSub msg.toList pat.toList

/-- Model of `handleApiError(error, context)`: the function always throws;
its result here is the error thrown. -/
def handleApiError (error : Thrown) (context : String) : JSError :=
  match error with
  | .err e =>
    if e.isMcpError then e
    else if msgContains e.message "ENOTFOUND" || msgContains e.message "ECONNREFUSED" then
      .networkError ("Connection failed in " ++ context)
    else if msgContains e.message "timeout" then
      .networkError ("Request timeout in " ++ context)
    else
      .mcpError ("Unexpected error in " ++ context) "UNEXPECTED_ERROR" none
  | .raw _ => .mcpError ("Unknown error in " ++ context) "UNKNOWN_ERROR" none

/-- Value of a list of decimal digit characters. -/
def digitsToNat (cs : List Char) : Nat :=
  cs.foldl (fun acc c => acc * 10 + (c.toNat - 48)) 0

/-- Model of the JavaScript `parseInt(s, 10)`: skip leading whitespace,
read an optional sign and then the longest run of decimal digits; `none`
models the `NaN` result when no digit is found. -/
def jsParseInt (s : String) : Option Int :=
  let cs := s.toList.dropWhile fun c => c = ' ' || c = '\t' || c = '\n' || c = '\r'
  match cs with
  | '-' :: rest =>
    let ds := rest.takeWhile Char.isDigit
    if ds.isEmpty then none else some (-(digitsToNat ds : Int))
  | '+' :: rest =>
    let ds := rest.takeWhile Char.isDigit
    if ds.isEmpty then none else some (digitsToNat ds : Int)
  | _ =>
    let ds := cs.takeWhile Char.isDigit
    if ds.isEmpty then none else some (digitsToNat ds : Int)

/-- Step `const statusText = response.statusText || fallback` (an
absent or empty status text falls back to the Unknown-error text). -/
def statusTextOrUnknown (statusText : Option String) : String :=
  match statusText with
  | none => "Unknown error"
  | some s => if s = "" then "Unknown error" else s

/-- Step `retryAfter ? parseInt(retryAfter, 10) : undefined` of the 429
branch. -/
def retryAfterSecondsOf (retryAfterHeader : Option String) : Option Int :=
  match retryAfterHeader with
  | none => none
  | some h => if h = "" then none else jsParseInt h

/-- Model of `handleHttpError(status, response, context)`: the function
always throws; its result here is the error thrown.  `statusText` models
`response.statusText` and `retryAfterHeader` the value of
`response.headers.get` on the retry-after header. -/
def handleHttpError (status : Nat) (statusText : Option String)
    (retryAfterHeader : Option String) (context : String) : JSError :=
  match status with
  | 404 => .packageNotFoundError context
  | 429 => .rateLimitError context (retryAfterSecondsOf retryAfterHeader)
  | 500 => .networkError
      ("Server error (" ++ toString status ++ "): " ++ statusTextOrUnknown statusText)
  | 502 => .networkError
      ("Server error (" ++ toString status ++ "): " ++ statusTextOrUnknown statusText)
  | 503 => .networkError
      ("Server error (" ++ toString status ++ "): " ++ statusTextOrUnknown statusText)
  | 504 => .networkError
      ("Server error (" ++ toString status ++ "): " ++ statusTextOrUnknown statusText)
  | _ => .mcpError ("HTTP error " ++ toString status ++ ": " ++ statusTextOrUnknown statusText)
      "HTTP_ERROR" (some status)

/-! ## Retry executor (src/utils/error-handler.ts, `withRetry`)

The asynchronous `fn` is modelled as a function from the attempt index
to the outcome of that invocation; the model returns the final outcome
together with the number of times `fn` was invoked.  The backoff sleeps
have no observable effect on the modelled state and are omitted. -/

/-- Decide whether the loop body of `withRetry` reaches one of its two
`continue` statements for the caught value `e`: either
`e instanceof RateLimitError`, or `e instanceof NetworkError ||
(e instanceof PackageReadmeMcpError && e.statusCode && e.statusCode >= 500)`
(a `statusCode` of `0` is falsy). -/
def retriedInLoop (e : Thrown) : Bool :=
  match e with
  | .err je =>
    je.isRateLimitError ||
      (je.isNetworkError ||
        (je.isMcpError && (match je.statusCode with
          | some s => decide (s ≠ 0) && decide (s ≥ 500)
          | none => false)))
  | .raw _ => false

/-- Loop of `withRetry` from attempt index `attempt` with `remaining`
further iterations allowed (`remaining = maxRetries - attempt`):
a success returns; on failure at the last allowed attempt the loop breaks
and the wrapped `lastError` is thrown; otherwise a retryable failure
continues with the next attempt and a non-retryable one is rethrown
unwrapped. -/
def withRetryGo (fn : Nat → Except Thrown α) (attempt : Nat) :
    Nat → Except Thrown α × Nat
  | 0 =>
    match fn attempt with
    | .ok v => (.ok v, 1)
    | .error e => (.error (.err e.toError), 1)
  | r + 1 =>
    match fn attempt with
    | .ok v => (.ok v, 1)
    | .error e =>
      if retriedInLoop e then
        let res := withRetryGo fn (attempt + 1) r
        (res.1, res.2 + 1)
      else
        (.error e, 1)

/-- Model of `withRetry(fn, maxRetries, baseDelay, context)`: run the
attempt loop from attempt index 0. -/
def withRetry (fn : Nat → Except Thrown α) (maxRetries : Nat) :
    Except Thrown α × Nat :=
  withRetryGo fn 0 maxRetries

/-! ## Repository URL parser (src/services/github-api.ts)

The method `parseRepositoryUrl` matches the URL against four anchored
regular expressions in order (plain or `git+` HTTPS, `git://`, and SSH),
each of the shape prefix then `([^/]+)\/([^/]+?)(\.git)?(\/.*)?$` with a
greedy owner group and a lazy repo group.  Because neither captured
group can contain a slash, the owner is exactly the text up to the first
slash and the repo is the following slash-free segment, minus a final
`.git` whenever dropping it leaves the segment nonempty (the lazy group
prefers the shorter capture); anything from the next slash on is
consumed by the final optional group. -/

/-- Split a character list at its first slash: the slash-free part
before it, and (when a slash exists) everything after it. -/
def breakSlash : List Char → List Char × Option (List Char)
  | [] => ([], none)
  | c :: cs =>
    if c = '/' then ([], some cs)
    else
      let r := breakSlash cs
      (c :: r.1, r.2)

/-- Check that `pat` is a suffix of `l`. -/
def endsWithL (l pat : List Char) : Bool := isPrefixL pat.reverse l.reverse

/-- Match the part of the URL after a recognized host prefix against
`([^/]+)\/([^/]+?)(\.git)?(\/.*)?$`, returning the two captures. -/
def matchOwnerRepo (rest : List Char) : Option (String × String) :=
  let ownerSplit := breakSlash rest
  match ownerSplit.2 with
  | none => none
  | some afterOwner =>
    let seg := (breakSlash afterOwner).1
    if ownerSplit.1.isEmpty || seg.isEmpty then none
    else
      let repo :=
        if endsWithL seg ".git".toList && decide (seg.length > 4) then
          seg.take (seg.length - 4)
        else seg
      some (String.mk ownerSplit.1, String.mk repo)

/-- Model of `GitHubApiClient.parseRepositoryUrl(repositoryUrl)`.  The
five literal prefixes below are the ways the four regular expressions
can consume the scheme/host part; they are pairwise exclusive, so trying
them in order is equivalent to trying the regular expressions in order. -/
def parseRepositoryUrl (url : String) : Option (String × String) :=
  let cs := url.toList
  if isPrefixL "https://github.com/".toList cs then
    matchOwnerRepo (cs.drop 19)
  else if isPrefixL "http://github.com/".toList cs then
    matchOwnerRepo (cs.drop 18)
  else if isPrefixL "git+https://github.com/".toList cs then
    matchOwnerRepo (cs.drop 23)
  else if isPrefixL "git://github.com/".toList cs then
    matchOwnerRepo (cs.drop 17)
  else if isPrefixL "git@github.com:".toList cs then
    matchOwnerRepo (cs.drop 15)
  else
    none

/-! ## Search post-processing (src/tools/search-packages.ts, lines 46-98)

The client-side quality/popularity filters and the final sort, applied to
the transformed result list.  JavaScript floating-point scores are
modelled as rationals (all score constants and the threshold values in
the claims are exactly representable comparisons that agree with the
double-precision evaluation). -/

/-- Transformed search result (the fields used by filtering/sorting). -/
structure PackageSearchResult where
  name : String
  version : String
  description : String
  tags : List String
  authors : List String
  totalDownloads : Nat
  verified : Bool
  packageTypes : List String
  deriving Repr, DecidableEq

/-- Quality score of the quality filter: 0.5 for a verified package,
0.3 for the Dependency package type, 0.2 for a nonempty author list. -/
def qualityScore (p : PackageSearchResult) : ℚ :=
  (if p.verified then (1 : ℚ) / 2 else 0)
    + (if p.packageTypes.contains "Dependency" then (3 : ℚ) / 10 else 0)
    + (if p.authors.length > 0 then (1 : ℚ) / 5 else 0)

/-- Step `if (quality !== undefined) filteredPackages = filteredPackages.filter(...)`. -/
def filterByQuality (ps : List PackageSearchResult) (quality : Option ℚ) :
    List PackageSearchResult :=
  match quality with
  | none => ps
  | some q => ps.filter fun p => qualityScore p ≥ q

/-- Step `Math.max(...filteredPackages.map(pkg => pkg.totalDownloads), 1)`. -/
def maxDownloads (ps : List PackageSearchResult) : Nat :=
  (ps.map fun p => p.totalDownloads).foldr Nat.max 1

/-- Step `if (popularity !== undefined) filteredPackages = filteredPackages.filter(...)`
with `popularityScore = pkg.totalDownloads / maxDownloads`. -/
def filterByPopularity (ps : List PackageSearchResult) (popularity : Option ℚ) :
    List PackageSearchResult :=
  match popularity with
  | none => ps
  | some pop =>
    let m := maxDownloads ps
    ps.filter fun p => (p.totalDownloads : ℚ) / (m : ℚ) ≥ pop

/-- Insert into a list sorted by `totalDownloads` descending, moving the
new element ahead only of strictly smaller entries (stable). -/
def insertByDownloads (p : PackageSearchResult) :
    List PackageSearchResult → List PackageSearchResult
  | [] => [p]
  | q :: qs =>
    if p.totalDownloads > q.totalDownloads then p :: q :: qs
    else q :: insertByDownloads p qs

/-- Step `filteredPackages.sort((a, b) => b.totalDownloads - a.totalDownloads)`,
modelled as a stable insertion sort by total downloads descending
(ECMAScript `Array.prototype.sort` is stable). -/
def sortByDownloadsDesc (ps : List PackageSearchResult) :
    List PackageSearchResult :=
  ps.foldr insertByDownloads []

/-- Lines 72-98 of `searchPackages`: the quality filter, then the
popularity filter, then the descending sort by total downloads. -/
def searchPostProcess (packages : List PackageSearchResult)
    (quality popularity : Option ℚ) : List PackageSearchResult :=
  sortByDownloadsDesc (filterByPopularity (filterByQuality packages quality) popularity)

/-! ## Existence check (src/services/nuget-api.ts, `checkPackageExists`)

A network fetch is modelled by its outcome: either a response with a
status (and header data) or a rejection with a thrown value (an abort on
timeout, a connection failure, ...).  The oracle `fetches` gives the
outcome of the fetch performed on each retry attempt. -/

/-- Outcome of one `fetch` call. -/
inductive FetchOutcome where
  | resp (status : Nat) (statusText : Option String) (retryAfterHeader : Option String)
  | reject (e : Thrown)
  deriving Repr, DecidableEq

/-- Property `response.ok`: status in the inclusive range 200-299. -/
def respOk (status : Nat) : Bool := decide (200 ≤ status) && decide (status ≤ 299)

/-- Try block of `checkPackageExists` (status 404 returns `false`, any
other non-ok status goes through `handleHttpError`, ok returns `true`). -/
def checkPackageExistsTry (packageName : String) (o : FetchOutcome) :
    Except Thrown Bool :=
  match o with
  | .reject e => .error e
  | .resp status st ra =>
    if status = 404 then .ok false
    else if !respOk status then
      .error (.err (handleHttpError status st ra
        ("NuGet registry for package " ++ packageName)))
    else .ok true

/-- Catch block of `checkPackageExists`: an error named AbortError is
reclassified through `handleApiError` on a fresh timeout `Error` and
rethrown; any other caught error is swallowed and the attempt returns
`false` (the code comment reads: if there is a network error, we assume
the package does not exist). -/
def checkPackageExistsCatch (packageName : String) (r : Except Thrown Bool) :
    Except Thrown Bool :=
  match r with
  | .ok b => .ok b
  | .error e =>
    if e.isAbortNamed then
      .error (.err (handleApiError (.err (.plainError "Request timeout"))
        ("NuGet registry for package " ++ packageName)))
    else .ok false

/-- One attempt of `checkPackageExists` (the async closure passed to
`withRetry`). -/
def checkPackageExistsAttempt (packageName : String)
    (fetches : Nat → FetchOutcome) (i : Nat) : Except Thrown Bool :=
  checkPackageExistsCatch packageName (checkPackageExistsTry packageName (fetches i))

/-- Model of `NuGetApiClient.checkPackageExists(packageName)`: the retry
executor around the attempt closure (`NUGET_API_CONFIG.RETRY_ATTEMPTS`
defaults to 3), together with the number of attempts performed. -/
def checkPackageExists (packageName : String) (fetches : Nat → FetchOutcome)
    (retryAttempts : Nat) : Except Thrown Bool × Nat :=
  withRetry (checkPackageExistsAttempt packageName fetches) retryAttempts

/-! ## Package-name validation (src/utils/validators.ts) -/

/-- Whitespace test for the JavaScript `trim`. -/
def isJsWs (c : Char) : Bool := c = ' ' || c = '\t' || c = '\n' || c = '\r'

/-- Model of `String.prototype.trim`. -/
def trimChars (cs : List Char) : List Char :=
  ((cs.dropWhile isJsWs).reverse.dropWhile isJsWs).reverse

/-- Character class `[a-zA-Z0-9]`. -/
def isAlnumAscii (c : Char) : Bool := c.isAlpha || c.isDigit

/-- Character class `[a-zA-Z0-9._-]`. -/
def nameCharOk (c : Char) : Bool := isAlnumAscii c || c = '.' || c = '_' || c = '-'

/-- Test of the anchored name pattern: one `[a-zA-Z0-9]` then any number
of `[a-zA-Z0-9._-]`. -/
def nameRegexOk (cs : List Char) : Bool :=
  match cs with
  | [] => false
  | c :: rest => isAlnumAscii c && rest.all nameCharOk

/-- Model of `validatePackageName(packageName)`: `none` when the name is
accepted, otherwise the `PackageReadmeMcpError` thrown. -/
def validatePackageName (packageName : String) : Option JSError :=
  if packageName = "" then
    some (.mcpError "Package name is required and must be a string"
      "INVALID_PACKAGE_NAME" none)
  else
    let trimmed := trimChars packageName.toList
    if trimmed.isEmpty then
      some (.mcpError "Package name cannot be empty" "INVALID_PACKAGE_NAME" none)
    else if trimmed.length > 100 then
      some (.mcpError "Package name cannot exceed 100 characters"
        "INVALID_PACKAGE_NAME" none)
    else if !nameRegexOk trimmed then
      some (.mcpError "Package name contains invalid characters"
        "INVALID_PACKAGE_NAME" none)
    else if containsSub trimmed "..".toList || endsWithL trimmed ".".toList then
      some (.mcpError "Package name cannot contain consecutive periods or end with a period"
        "INVALID_PACKAGE_NAME" none)
    else
      none

/-! ## The getPackageInfo façade (src/tools/get-package-info.ts)

The NuGet capability calls are modelled by an oracle record giving the
outcome of each awaited call; the façade result records the response (or
propagated error), the cache state after the call, and how many times
the existence-check capability was invoked during the call. -/

/-- JavaScript truthiness of an optional string (absent or empty is falsy). -/
def strTruthy : Option String → Bool
  | none => false
  | some s => s ≠ ""

/-- Split at every occurrence of the separator character, like the
JavaScript `String.prototype.split` with a one-character separator. -/
def splitOnChar (sep : Char) : List Char → List (List Char)
  | [] => [[]]
  | c :: cs =>
    let r := splitOnChar sep cs
    if c = sep then [] :: r
    else
      match r with
      | [] => [[c]]
      | h :: t => (c :: h) :: t

/-- Author list assembly: `authors ? authors.split(comma).map(trim).filter(nonempty) : []`. -/
def parseAuthors : Option String → List String
  | none => []
  | some s =>
    if s = "" then []
    else
      ((splitOnChar ',' s.toList).map fun a => String.mk (trimChars a)).filter
        fun a => a.length > 0

/-- Tag list assembly: `tags ? tags.split(space).filter(t => t.trim().length > 0) : []`
(note the filter trims but the kept tag is untrimmed). -/
def parseTags : Option String → List String
  | none => []
  | some s =>
    if s = "" then []
    else
      ((splitOnChar ' ' s.toList).map String.mk).filter
        fun t => !(trimChars t.toList).isEmpty

/-- Repository info: present exactly when the project URL is truthy and
mentions github.com. -/
structure RepositoryInfo where
  type : String
  url : String
  deriving Repr, DecidableEq

/-- Step building `repository` from `projectUrl`. -/
def repositoryFromProjectUrl (projectUrl : Option String) : Option RepositoryInfo :=
  match projectUrl with
  | some u => if u ≠ "" && msgContains u "github.com" then some ⟨"git", u⟩ else none
  | none => none

/-- Attributes (`$`) of a `<dependency>` element of the parsed nuspec. -/
structure NuSpecDependency where
  id : Option String
  version : Option String
  deriving Repr, DecidableEq

/-- One `<group>` of the nuspec dependency section. -/
structure NuSpecDepGroup where
  targetFramework : Option String
  dependency : Option (List NuSpecDependency)
  deriving Repr, DecidableEq

/-- The `dependencies` node: a flat array, grouped form, or both. -/
structure NuSpecDependencies where
  dependency : Option (List NuSpecDependency)
  group : Option (List NuSpecDepGroup)
  deriving Repr, DecidableEq

/-- The `package.metadata` node of a parsed nuspec document. -/
structure NuSpecMetadata where
  id : String
  version : String
  title : Option String
  description : Option String
  authors : Option String
  tags : Option String
  licenseExpression : Option String
  licenseUrl : Option String
  projectUrl : Option String
  dependencies : Option NuSpecDependencies
  deriving Repr, DecidableEq

/-- A parsed nuspec (`packageMetadata.package.metadata`, with the outer
`package` wrapper flattened away). -/
structure NuSpecPackage where
  metadata : NuSpecMetadata
  deriving Repr, DecidableEq

/-- The `download_stats` shape returned by `getAllDownloadStats`. -/
structure DownloadStats where
  last_day : Nat
  last_week : Nat
  last_month : Nat
  deriving Repr, DecidableEq

/-- The `PackageInfoResponse` shape (the `exists` field is spelled
`exists_` because `exists` is reserved in Lean); `dependencies` models
the JavaScript record as an insertion-ordered association list. -/
structure PackageInfoResponse where
  package_name : String
  latest_version : String
  description : String
  authors : List String
  license : String
  tags : List String
  dependencies : List (String × String)
  dev_dependencies : Option (List (String × String))
  download_stats : DownloadStats
  repository : Option RepositoryInfo
  exists_ : Bool
  deriving Repr, DecidableEq

/-- JavaScript object assignment `obj[k] = v`: replace in place when the
key exists, else append. -/
def assocUpsert (l : List (String × String)) (k v : String) :
    List (String × String) :=
  match l with
  | [] => [(k, v)]
  | (k0, v0) :: rest =>
    if k0 = k then (k0, v) :: rest else (k0, v0) :: assocUpsert rest k v

/-- Value stored for a dependency: `depWithAttrs.$.version || star`. -/
def depVersionOrStar (dep : NuSpecDependency) : String :=
  match dep.version with
  | some v => if v = "" then "*" else v
  | none => "*"

/-- Insert one flat dependency if its id attribute is truthy. -/
def addFlatDependency (acc : List (String × String)) (dep : NuSpecDependency) :
    List (String × String) :=
  match dep.id with
  | some id => if id = "" then acc else assocUpsert acc id (depVersionOrStar dep)
  | none => acc

/-- Insert one grouped dependency, keying by the id plus the target
framework in parentheses when the group declares a truthy one. -/
def addGroupDependency (tf : Option String) (acc : List (String × String))
    (dep : NuSpecDependency) : List (String × String) :=
  match dep.id with
  | some id =>
    if id = "" then acc
    else
      let key := match tf with
        | some t => if t = "" then id else id ++ " (" ++ t ++ ")"
        | none => id
      assocUpsert acc key (depVersionOrStar dep)
  | none => acc

/-- The dependency-assembly block of `getPackageInfo` (lines 210-247):
first the flat `dependency` array, then every `group`. -/
def buildDependencies (include_dependencies : Bool)
    (deps : Option NuSpecDependencies) : List (String × String) :=
  if include_dependencies then
    match deps with
    | none => []
    | some dg =>
      let flat := match dg.dependency with
        | none => []
        | some list => list.foldl addFlatDependency []
      match dg.group with
      | none => flat
      | some groups =>
        groups.foldl
          (fun acc g =>
            match g.dependency with
            | none => acc
            | some list => list.foldl (addGroupDependency g.targetFramework) acc)
          flat
  else []

/-- The placeholder response returned when the existence check reports
the package absent (lines 154-170). -/
def notFoundInfoResponse (package_name : String) : PackageInfoResponse where
  package_name := package_name
  latest_version := "unknown"
  description := "Package not found"
  authors := []
  license := "Unknown"
  tags := []
  dependencies := []
  dev_dependencies := none
  download_stats := ⟨0, 0, 0⟩
  repository := none
  exists_ := false

/-- Key helper `createCacheKey.packageInfo(packageName, version)`. -/
def createCacheKeyPackageInfo (packageName version : String) : String :=
  "pkg_info:" ++ packageName ++ ":" ++ version

/-- Oracle for the NuGet capability calls awaited by `getPackageInfo`. -/
structure PackageInfoApi where
  checkPackageExistsResult : Except Thrown Bool
  getPackageVersionsResult : Except Thrown (List String)
  getPackageMetadataResult : String → Except Thrown NuSpecPackage
  getAllDownloadStatsResult : DownloadStats

/-- Result of one façade call: the returned response or propagated
error, the cache state afterwards, and the number of times the
existence-check capability was invoked. -/
structure FacadeOutcome where
  result : Except Thrown PackageInfoResponse
  cache : MemoryCache PackageInfoResponse
  existenceChecks : Nat
  deriving Repr

/-- The successful-path response assembly of `getPackageInfo`
(lines 258-270). -/
def assembleInfoResponse (package_name latestVersion : String)
    (md : NuSpecMetadata) (include_dependencies : Bool)
    (stats : DownloadStats) : PackageInfoResponse where
  package_name := package_name
  latest_version := latestVersion
  description := if strTruthy md.description then md.description.getD "" else "No description available"
  authors := parseAuthors md.authors
  license := if strTruthy md.licenseExpression then md.licenseExpression.getD "" else "Unknown"
  tags := parseTags md.tags
  dependencies := buildDependencies include_dependencies md.dependencies
  dev_dependencies := none
  download_stats := stats
  repository := repositoryFromProjectUrl md.projectUrl
  exists_ := true

/-- Model of `getPackageInfo(params)`: validation, cache lookup, the
existence check with its not-found short circuit, the metadata calls and
response assembly, and the final `cache.set` on the success path only. -/
def getPackageInfo (jsonLen : PackageInfoResponse → Nat)
    (c : MemoryCache PackageInfoResponse) (now : Nat) (package_name : String)
    (include_dependencies : Bool) (_include_dev_dependencies : Bool)
    (api : PackageInfoApi) : FacadeOutcome :=
  match validatePackageName package_name with
  | some e => ⟨.error (.err e), c, 0⟩
  | none =>
    let key := createCacheKeyPackageInfo package_name "latest"
    let g := MemoryCache.get c now key
    match g.1 with
    | some cached => ⟨.ok cached, g.2, 0⟩
    | none =>
      match api.checkPackageExistsResult with
      | .error e => ⟨.error e, g.2, 1⟩
      | .ok false => ⟨.ok (notFoundInfoResponse package_name), g.2, 1⟩
      | .ok true =>
        match api.getPackageVersionsResult with
        | .error e => ⟨.error e, g.2, 1⟩
        | .ok versions =>
          match versions.getLast? with
          | none =>
            ⟨.error (.err (.plainError
              ("No versions found for package " ++ package_name))), g.2, 1⟩
          | some latestVersion =>
            match api.getPackageMetadataResult latestVersion with
            | .error e => ⟨.error e, g.2, 1⟩
            | .ok pm =>
              let response := assembleInfoResponse package_name latestVersion
                pm.metadata include_dependencies api.getAllDownloadStatsResult
              ⟨.ok response, MemoryCache.set jsonLen g.2 now key response none, 1⟩

/-! ## Concrete scenarios used by the claims -/

/-- A cache with a 120-byte budget for the size-invariant scenario. -/
def sizeCexCache0 : MemoryCache String := ⟨[], 3600000, 120⟩

/-- First write: a 10-character payload under key a at time 0 (estimated
entry size 50). -/
def sizeCexCache1 : MemoryCache String :=
  MemoryCache.set jsonLenStr sizeCexCache0 0 "a" "0123456789" none

/-- Second write: a 10-character payload under key b at time 1 (usage 100). -/
def sizeCexCache2 : MemoryCache String :=
  MemoryCache.set jsonLenStr sizeCexCache1 1 "b" "0123456789" none

/-- Third write: a 35-character payload under key c at time 2 (estimated
entry size 100); a single eviction of key a cannot make enough room. -/
def sizeCexCache3 : MemoryCache String :=
  MemoryCache.set jsonLenStr sizeCexCache2 2 "c" "01234567890123456789012345678901234" none

/-- An empty cache with the default configuration for the
read-extends-freshness scenario. -/
def readFreshCache : MemoryCache String := ⟨[], 3600000, 104857600⟩

/-- State after `set(k, v, 1000)` at time 0. -/
def readFreshAfterSet : MemoryCache String :=
  MemoryCache.set jsonLenStr readFreshCache 0 "k" "v" (some 1000)

/-- Result of `get(k)` at time 900. -/
def readFreshFirstGet : Option String × MemoryCache String :=
  MemoryCache.get readFreshAfterSet 900 "k"

/-- Result of a further `get(k)` at time 1800 (900 ms after the first
read, 1800 ms after the write). -/
def readFreshSecondGet : Option String × MemoryCache String :=
  MemoryCache.get readFreshFirstGet.2 1800 "k"

/-- An operation that fails with a retryable network error on its first
two attempts and then succeeds with 42. -/
def retryTwiceThenSucceed : Nat → Except Thrown Nat := fun i =>
  if i < 2 then .error (.err (.networkError "socket hang up")) else .ok 42

/-- Search result with 100 total downloads. -/
def searchCex100 : PackageSearchResult :=
  ⟨"pkg-hundred", "1.0.0", "d", [], [], 100, false, []⟩

/-- Search result with 50 total downloads. -/
def searchCex50 : PackageSearchResult :=
  ⟨"pkg-fifty", "1.0.0", "d", [], [], 50, false, []⟩

/-- Search result with 10 total downloads. -/
def searchCex10 : PackageSearchResult :=
  ⟨"pkg-ten", "1.0.0", "d", [], [], 10, false, []⟩

/-- Oracle for a package whose existence check reports absent; the
later capability calls are never reached. -/
def ghostApi : PackageInfoApi where
  checkPackageExistsResult := .ok false
  getPackageVersionsResult := .ok []
  getPackageMetadataResult := fun _ => .error (.raw "unreachable")
  getAllDownloadStatsResult := ⟨0, 0, 0⟩

/-- A serialized-length estimate for responses; its value is irrelevant
to the not-found runs, which never write the cache. -/
def ghostJsonLen : PackageInfoResponse → Nat := fun _ => 100

/-- An empty cache with the default configuration. -/
def ghostCache0 : MemoryCache PackageInfoResponse := ⟨[], 3600000, 104857600⟩

/-- First façade call for the missing package. -/
def ghostCall1 : FacadeOutcome :=
  getPackageInfo ghostJsonLen ghostCache0 0 "ghost-package" true false ghostApi

/-- Second façade call for the same package 1000 ms later, well within
any cache TTL. -/
def ghostCall2 : FacadeOutcome :=
  getPackageInfo ghostJsonLen ghostCall1.cache 1000 "ghost-package" true false ghostApi

/-! ## Helper lemmas -/

theorem mapSet_of_lookup_none {α : Type} {l : List (String × CacheEntry α)}
    {key : String} (e : CacheEntry α) (h : lookupEntry l key = none) :
    mapSet l key e = l ++ [(key, e)] := by
  induction l with
  | nil => rfl
  | cons kv rest ih =>
    obtain ⟨k0, e0⟩ := kv
    by_cases hk : k0 = key
    · simp [lookupEntry, hk] at h
    · simp only [lookupEntry, hk, if_false] at h
      simp [mapSet, hk, ih h]

theorem estimateMemoryUsage_append {α : Type} (jsonLen : α → Nat)
    (l : List (String × CacheEntry α)) (key : String) (e : CacheEntry α) :
    estimateMemoryUsage jsonLen (l ++ [(key, e)])
      = estimateMemoryUsage jsonLen l + estimateEntrySize jsonLen key e := by
  simp [estimateMemoryUsage]

theorem eraseKey_length_ge {α : Type} (l : List (String × CacheEntry α))
    (key : String) : l.length - 1 ≤ (eraseKey l key).length := by
  induction l with
  | nil => simp [eraseKey]
  | cons kv rest ih =>
    by_cases hk : kv.1 = key
    · obtain ⟨k0, e0⟩ := kv
      simp_all [eraseKey]
    · obtain ⟨k0, e0⟩ := kv
      simp only [eraseKey, hk, if_false, List.length_cons]
      omega

theorem evictLeastRecentlyUsed_length_ge {α : Type}
    (l : List (String × CacheEntry α)) (now : Nat) :
    l.length - 1 ≤ (evictLeastRecentlyUsed l now).length := by
  unfold evictLeastRecentlyUsed
  cases hf : findOldestKey l now with
  | none => simp
  | some k => simpa [hf] using eraseKey_length_ge l k

theorem lookupEntry_none_of_not_mem {α : Type}
    {l : List (String × CacheEntry α)} {key : String}
    (h : key ∉ l.map Prod.fst) : lookupEntry l key = none := by
  induction l with
  | nil => rfl
  | cons kv rest ih =>
    obtain ⟨k0, e0⟩ := kv
    simp only [List.map_cons, List.mem_cons] at h
    push_neg at h
    have hk : k0 ≠ key := fun he => h.1 he.symm
    simp [lookupEntry, hk, ih h.2]

theorem lookupEntry_eraseKey_self {α : Type}
    {l : List (String × CacheEntry α)} {key : String}
    (hnd : (l.map Prod.fst).Nodup) :
    lookupEntry (eraseKey l key) key = none := by
  induction l with
  | nil => rfl
  | cons kv rest ih =>
    simp only [List.map_cons, List.nodup_cons] at hnd
    by_cases hk : kv.1 = key
    · obtain ⟨k0, e0⟩ := kv
      subst hk
      simpa [eraseKey] using lookupEntry_none_of_not_mem hnd.1
    · obtain ⟨k0, e0⟩ := kv
      simp only at hk
      simp [eraseKey, lookupEntry, hk, ih hnd.2]

theorem get_of_lookup_none {α : Type} {c : MemoryCache α} {key : String}
    (now : Nat) (h : lookupEntry c.entries key = none) :
    MemoryCache.get c now key = (none, c) := by
  simp [MemoryCache.get, h]

theorem get_miss_key_absent {α : Type} {c : MemoryCache α} {key : String}
    {now : Nat} (hnd : (c.entries.map Prod.fst).Nodup)
    (h : (MemoryCache.get c now key).1 = none) :
    lookupEntry (MemoryCache.get c now key).2.entries key = none := by
  unfold MemoryCache.get at h ⊢
  match hl : lookupEntry c.entries key with
  | none => simp [hl]
  | some e =>
    simp only [hl] at h ⊢
    by_cases hexp : now - e.timestamp > e.ttl
    · simpa [hexp] using lookupEntry_eraseKey_self hnd
    · simp [hexp] at h

/-! ## Claim C1 -/

/-- C1 counterexample: three writes into a cache with `maxBytes = 120`
end with an estimated total size of 150, so the claimed invariant that
the total serialized size is at most `maxBytes` after every write fails;
`set` runs `evictLeastRecentlyUsed` at most once per insert instead of
evicting repeatedly until room exists. -/
theorem cache_size_budget_counterexample :
    sizeCexCache3.maxSize = 120 ∧
    estimateMemoryUsage jsonLenStr sizeCexCache3.entries = 150 ∧
    ¬ estimateMemoryUsage jsonLenStr sizeCexCache3.entries ≤ sizeCexCache3.maxSize :=
  ⟨rfl, by rfl, by decide⟩

/-- C1 (amended): `set` performs at most a single eviction pass before
inserting, so a write never removes more than one prior entry
(the entry count after `set` is at least the count before), and the
size budget is guaranteed after a write exactly when that single
conditional eviction leaves room for the new entry. -/
theorem cache_set_single_eviction_budget {α : Type} (jsonLen : α → Nat)
    (c : MemoryCache α) (now : Nat) (key : String) (value : α) (ttl : Option Nat)
    (hfresh : lookupEntry
        (postEvictionEntries jsonLen c now key ⟨value, now, actualTtl c ttl⟩) key = none)
    (hroom : estimateMemoryUsage jsonLen
          (postEvictionEntries jsonLen c now key ⟨value, now, actualTtl c ttl⟩)
        + estimateEntrySize jsonLen key ⟨value, now, actualTtl c ttl⟩ ≤ c.maxSize) :
    estimateMemoryUsage jsonLen (MemoryCache.set jsonLen c now key value ttl).entries
        ≤ c.maxSize ∧
    c.entries.length ≤ (MemoryCache.set jsonLen c now key value ttl).entries.length := by
  have hset : (MemoryCache.set jsonLen c now key value ttl).entries
      = postEvictionEntries jsonLen c now key ⟨value, now, actualTtl c ttl⟩
          ++ [(key, ⟨value, now, actualTtl c ttl⟩)] := by
    simp only [MemoryCache.set]
    rw [mapSet_of_lookup_none _ hfresh]
  constructor
  · rw [hset, estimateMemoryUsage_append]
    exact hroom
  · rw [hset]
    have h1 : c.entries.length - 1
        ≤ (postEvictionEntries jsonLen c now key ⟨value, now, actualTtl c ttl⟩).length := by
      unfold postEvictionEntries
      by_cases hw : wouldExceedMaxSize jsonLen c key ⟨value, now, actualTtl c ttl⟩
      · simpa [hw] using evictLeastRecentlyUsed_length_ge c.entries now
      · simp [hw]
    simp only [List.length_append, List.length_cons, List.length_nil]
    omega

/-- Witness for the amended C1 theorem at a concrete input. -/
theorem cache_set_single_eviction_budget_witness :
    lookupEntry (postEvictionEntries jsonLenStr (⟨[], 3600000, 100⟩ : MemoryCache String)
        0 "k" ⟨"v", 0, actualTtl (⟨[], 3600000, 100⟩ : MemoryCache String) none⟩) "k" = none ∧
    estimateMemoryUsage jsonLenStr (postEvictionEntries jsonLenStr
          (⟨[], 3600000, 100⟩ : MemoryCache String) 0 "k"
          ⟨"v", 0, actualTtl (⟨[], 3600000, 100⟩ : MemoryCache String) none⟩)
        + estimateEntrySize jsonLenStr "k"
          ⟨"v", 0, actualTtl (⟨[], 3600000, 100⟩ : MemoryCache String) none⟩ ≤ 100 ∧
    estimateMemoryUsage jsonLenStr
        (MemoryCache.set jsonLenStr (⟨[], 3600000, 100⟩ : MemoryCache String)
          0 "k" "v" none).entries ≤ 100 :=
  ⟨by rfl, by decide,
   (cache_set_single_eviction_budget jsonLenStr ⟨[], 3600000, 100⟩ 0 "k" "v" none
     (by rfl) (by decide)).1⟩

/-! ## Claim C6 -/

/-- C6: a cache read of a present, non-expired entry refreshes its
stored timestamp to the current time and returns the value; a read of a
missing key returns absent and leaves the state unchanged; a read of an
expired entry returns absent and deletes it.  Concretely, after
`set(k, v, 1000)` at time 0 a `get(k)` at 900 returns `v` and resets the
clock, a further `get(k)` at 1800 (900 ms later, past the original TTL)
still returns `v`, while without the intermediate read a `get(k)` at
1100 returns absent and deletes the entry. -/
theorem cache_get_refresh_semantics :
    (∀ (α : Type) (c : MemoryCache α) (now : Nat) (key : String),
      (lookupEntry c.entries key = none → MemoryCache.get c now key = (none, c)) ∧
      (∀ e : CacheEntry α, lookupEntry c.entries key = some e →
        (now - e.timestamp > e.ttl →
          MemoryCache.get c now key
            = (none, { c with entries := eraseKey c.entries key })) ∧
        (now - e.timestamp ≤ e.ttl →
          MemoryCache.get c now key
            = (some e.data, { c with entries := touchKey c.entries key now })))) ∧
    readFreshFirstGet.1 = some "v" ∧
    readFreshSecondGet.1 = some "v" ∧
    MemoryCache.get readFreshAfterSet 1100 "k" = (none, readFreshCache) := by
  refine ⟨?_, by rfl, by rfl, by rfl⟩
  intro α c now key
  constructor
  · intro hl
    simp [MemoryCache.get, hl]
  · intro e he
    constructor
    · intro hexp
      simp [MemoryCache.get, he, hexp]
    · intro hfresh
      have hne : ¬ now - e.timestamp > e.ttl := not_lt.mpr hfresh
      simp [MemoryCache.get, he, hne]

/-- Witness for C6: the general statement applied to the concrete first
read of the scenario. -/
theorem cache_get_refresh_semantics_witness :
    MemoryCache.get readFreshAfterSet 900 "k"
      = (some "v",
         { readFreshAfterSet with entries := touchKey readFreshAfterSet.entries "k" 900 }) :=
  ((cache_get_refresh_semantics.1 String readFreshAfterSet 900 "k").2
    ⟨"v", 0, 1000⟩ (by rfl)).2 (by decide)

theorem withRetryGo_count_le {α : Type} (fn : Nat → Except Thrown α) :
    ∀ (remaining attempt : Nat),
      (withRetryGo fn attempt remaining).2 ≤ remaining + 1 := by
  intro remaining
  induction remaining with
  | zero =>
    intro attempt
    unfold withRetryGo
    match fn attempt with
    | .ok v => simp
    | .error e => simp
  | succ r ih =>
    intro attempt
    unfold withRetryGo
    match fn attempt with
    | .ok v => simp
    | .error e =>
      by_cases hr : retriedInLoop e
      · simpa [hr] using Nat.add_le_add_right (ih (attempt + 1)) 1
      · simp [hr]

/-! ## Claim C2 -/

/-- C2 counterexample: with an empty cache and an existence check that
reports the package absent, the façade returns the normal not-found
response with `exists` false, but the cache stays empty and a second
call for the same package invokes the existence-check capability again
(`existenceChecks = 1`, not 0), contradicting the claim that the
not-found response is cached like a success. -/
theorem not_found_caching_counterexample :
    ghostCall1.result = .ok (notFoundInfoResponse "ghost-package") ∧
    (notFoundInfoResponse "ghost-package").exists_ = false ∧
    ghostCall1.cache.entries = [] ∧
    ghostCall2.existenceChecks = 1 :=
  ⟨by rfl, by rfl, by rfl, by rfl⟩

/-- C2 (amended): when the existence check reports the package absent
the façade converts the outcome into a normal (non-error) response with
`exists` false, but it returns early without caching that response (the
cache is exactly the state left by the lookup), so a second call within
any TTL misses the cache and invokes the existence-check capability
again. -/
theorem not_found_response_not_cached {jsonLen : PackageInfoResponse → Nat}
    (c : MemoryCache PackageInfoResponse) (now now2 : Nat) (packageName : String)
    (inc incd : Bool) (api : PackageInfoApi)
    (hval : validatePackageName packageName = none)
    (hnd : (c.entries.map Prod.fst).Nodup)
    (hmiss : (MemoryCache.get c now (createCacheKeyPackageInfo packageName "latest")).1 = none)
    (hnf : api.checkPackageExistsResult = .ok false) :
    (getPackageInfo jsonLen c now packageName inc incd api).result
        = .ok (notFoundInfoResponse packageName) ∧
    (notFoundInfoResponse packageName).exists_ = false ∧
    (getPackageInfo jsonLen c now packageName inc incd api).existenceChecks = 1 ∧
    (getPackageInfo jsonLen c now packageName inc incd api).cache
        = (MemoryCache.get c now (createCacheKeyPackageInfo packageName "latest")).2 ∧
    (getPackageInfo jsonLen
        (getPackageInfo jsonLen c now packageName inc incd api).cache
        now2 packageName inc incd api).existenceChecks = 1 := by
  have hface : getPackageInfo jsonLen c now packageName inc incd api
      = ⟨.ok (notFoundInfoResponse packageName),
         (MemoryCache.get c now (createCacheKeyPackageInfo packageName "latest")).2, 1⟩ := by
    simp only [getPackageInfo, hval]
    rw [hmiss, hnf]
  have habsent : lookupEntry
      (MemoryCache.get c now (createCacheKeyPackageInfo packageName "latest")).2.entries
      (createCacheKeyPackageInfo packageName "latest") = none :=
    get_miss_key_absent hnd hmiss
  have hmiss2 : (MemoryCache.get
      (MemoryCache.get c now (createCacheKeyPackageInfo packageName "latest")).2 now2
      (createCacheKeyPackageInfo packageName "latest")).1 = none := by
    rw [get_of_lookup_none now2 habsent]
  refine ⟨by rw [hface], rfl, by rw [hface], by rw [hface], ?_⟩
  rw [hface]
  simp only [getPackageInfo, hval]
  rw [hmiss2, hnf]

/-- Witness for the amended C2 theorem: the ghost-package scenario
satisfies the hypotheses, and the second call still performs the
existence check. -/
theorem not_found_response_not_cached_witness :
    validatePackageName "ghost-package" = none ∧
    ((ghostCache0.entries.map Prod.fst).Nodup ∧
      (MemoryCache.get ghostCache0 0 (createCacheKeyPackageInfo "ghost-package" "latest")).1
        = none) ∧
    (getPackageInfo ghostJsonLen
        (getPackageInfo ghostJsonLen ghostCache0 0 "ghost-package" true false ghostApi).cache
        1000 "ghost-package" true false ghostApi).existenceChecks = 1 :=
  ⟨by rfl, ⟨by simp [ghostCache0], by rfl⟩,
   (not_found_response_not_cached ghostCache0 0 1000 "ghost-package" true false ghostApi
     (by rfl) (by simp [ghostCache0]) (by rfl) (by rfl)).2.2.2.2⟩

/-! ## Claim C3 -/

/-- C3: `withRetry` invokes the operation at most `maxRetries + 1` times
in total; an operation that fails twice with a retryable network error
and then succeeds is, with a budget of 3 retries, invoked exactly 3
times and its success value returned; an operation that always throws a
`PackageNotFoundError` is invoked exactly once and the error propagates
immediately. -/
theorem with_retry_attempt_counts :
    (∀ (α : Type) (fn : Nat → Except Thrown α) (maxRetries : Nat),
      (withRetry fn maxRetries).2 ≤ maxRetries + 1) ∧
    withRetry retryTwiceThenSucceed 3 = (.ok 42, 3) ∧
    withRetry (fun _ => (.error (.err (.packageNotFoundError "left-pad")) : Except Thrown Nat)) 3
      = (.error (.err (.packageNotFoundError "left-pad")), 1) :=
  ⟨fun _ fn maxRetries => withRetryGo_count_le fn maxRetries 0, by rfl, by rfl⟩

/-! ## Claim C4 -/

/-- C4 counterexample: status 501 falls into the default branch of
`handleHttpError` (an Unknown HTTP error carrying the status code), yet
the executor does retry it: with a budget of 3 retries the operation is
invoked 4 times, not 1, because `withRetry` retries every
`PackageReadmeMcpError` whose `statusCode` is at least 500. -/
theorem http_unknown_status_retried_counterexample :
    handleHttpError 501 none none "ctx"
      = .mcpError "HTTP error 501: Unknown error" "HTTP_ERROR" (some 501) ∧
    (withRetry (fun _ =>
        (.error (.err (handleHttpError 501 none none "ctx")) : Except Thrown Unit)) 3).2 = 4 :=
  ⟨by rfl, by rfl⟩

/-- C4 (amended): status 404 maps to `PackageNotFoundError` and is not
retried; status 429 maps to `RateLimitError`, capturing the parsed
retry-after header value in seconds when the header is present (and
nonempty), and is retried; statuses 500/502/503/504 map to a retryable
`NetworkError`; every other status maps to an Unknown HTTP error
(`HTTP_ERROR`) carrying the status code, which the executor does not
retry when the status is below 500 but does retry when it is 500 or
above (e.g. 501). -/
theorem http_status_classification_amended
    (status : Nat) (st ra : Option String) (context header : String)
    (h404 : status ≠ 404) (h429 : status ≠ 429) (h500 : status ≠ 500)
    (h502 : status ≠ 502) (h503 : status ≠ 503) (h504 : status ≠ 504) :
    (handleHttpError 404 st ra context = .packageNotFoundError context ∧
      retriedInLoop (.err (handleHttpError 404 st ra context)) = false ∧
      (handleHttpError 429 st (some header) context).isRateLimitError = true ∧
      (header ≠ "" →
        (handleHttpError 429 st (some header) context).retryAfterDetail = jsParseInt header) ∧
      retriedInLoop (.err (handleHttpError 429 st ra context)) = true ∧
      (handleHttpError 500 st ra context).isNetworkError = true ∧
      (handleHttpError 502 st ra context).isNetworkError = true ∧
      (handleHttpError 503 st ra context).isNetworkError = true ∧
      (handleHttpError 504 st ra context).isNetworkError = true ∧
      retriedInLoop (.err (handleHttpError 500 st ra context)) = true) ∧
    (∃ msg, handleHttpError status st ra context = .mcpError msg "HTTP_ERROR" (some status)) ∧
    (status < 500 → retriedInLoop (.err (handleHttpError status st ra context)) = false) ∧
    (500 ≤ status → retriedInLoop (.err (handleHttpError status st ra context)) = true) := by
  have hdefault : ∃ msg,
      handleHttpError status st ra context = .mcpError msg "HTTP_ERROR" (some status) := by
    unfold handleHttpError
    split
    · exact absurd rfl h404
    · exact absurd rfl h429
    · exact absurd rfl h500
    · exact absurd rfl h502
    · exact absurd rfl h503
    · exact absurd rfl h504
    · exact ⟨_, rfl⟩
  obtain ⟨msg, hmsg⟩ := hdefault
  refine ⟨⟨rfl, by rfl, ?_, ?_, ?_, rfl, rfl, rfl, rfl, by rfl⟩, ⟨msg, hmsg⟩, ?_, ?_⟩
  · simp [handleHttpError, JSError.isRateLimitError]
  · intro hh
    simp [handleHttpError, retryAfterSecondsOf, hh, JSError.retryAfterDetail]
  · rfl
  · intro hlt
    rw [hmsg]
    simp [retriedInLoop, JSError.isRateLimitError, JSError.isNetworkError,
      JSError.isMcpError, JSError.statusCode]
    omega
  · intro hge
    rw [hmsg]
    simp [retriedInLoop, JSError.isRateLimitError, JSError.isNetworkError,
      JSError.isMcpError, JSError.statusCode]
    omega

/-- Witness for the amended C4 theorem at status 403 (not retried). -/
theorem http_status_classification_amended_witness :
    ((403 : Nat) < 500 →
      retriedInLoop (.err (handleHttpError 403 none none "API access")) = false) ∧
    retriedInLoop (.err (handleHttpError 403 none none "API access")) = false := by
  have h := http_status_classification_amended 403 none none "API access" "60"
    (by decide) (by decide) (by decide) (by decide) (by decide) (by decide)
  exact ⟨h.2.2.1, h.2.2.1 (by decide)⟩

/-! ## Claim C5 -/

/-- C5 counterexample: a client-side deadline abort is converted (via a
fresh timeout `Error` passed to `handleApiError`) into a `NetworkError`,
which is the same error class and the same `NETWORK_ERROR` code as the
error produced for a server-signaled HTTP 500 failure; there is no
distinct Timeout kind. -/
theorem timeout_same_kind_counterexample :
    handleApiError (.err (.plainError "Request timeout")) "ctx"
      = .networkError "Request timeout in ctx" ∧
    handleHttpError 500 (some "Internal Server Error") none "ctx"
      = .networkError "Server error (500): Internal Server Error" ∧
    (handleApiError (.err (.plainError "Request timeout")) "ctx").code
      = (handleHttpError 500 (some "Internal Server Error") none "ctx").code ∧
    (handleApiError (.err (.plainError "Request timeout")) "ctx").isNetworkError = true ∧
    (handleHttpError 500 (some "Internal Server Error") none "ctx").isNetworkError = true :=
  ⟨by rfl, by rfl, by rfl, by rfl, by rfl⟩

/-- C5 (amended): exceeding a deadline surfaces as an abort, which the
client catch blocks convert into a retryable `NetworkError` (code
`NETWORK_ERROR`) through the timeout branch of `handleApiError`; this is
the same error kind as the one produced for server-signaled 500-family
failures, not a kind distinct from it. -/
theorem timeout_classified_as_retryable_network (context packageName : String) :
    handleApiError (.err (.plainError "Request timeout")) context
      = .networkError ("Request timeout in " ++ context) ∧
    retriedInLoop (.err (handleApiError (.err (.plainError "Request timeout")) context))
      = true ∧
    checkPackageExistsCatch packageName (.error (.err .abortError))
      = .error (.err (.networkError
          ("Request timeout in NuGet registry for package " ++ packageName))) ∧
    (∀ st ra ctx2,
      (handleApiError (.err (.plainError "Request timeout")) context).isNetworkError
        = (handleHttpError 500 st ra ctx2).isNetworkError) :=
  ⟨by rfl, by rfl, by rfl, fun _ _ _ => by rfl⟩

/-! ## Claim C7 -/

/-- C7: for three search results with download counts 100, 50 and 10,
the popularity threshold 0.6 keeps only the first result (its count
normalized against the maximum of the result set gives ratio 1, and
0.5 and 0.1 fall below the threshold); with the popularity filter unset
all three results are returned sorted by total download count
descending, in the order 100, 50, 10 (also from a permuted input). -/
theorem search_filtering_and_ordering :
    searchPostProcess [searchCex100, searchCex50, searchCex10] none (some (0.6 : ℚ))
      = [searchCex100] ∧
    searchPostProcess [searchCex100, searchCex50, searchCex10] none none
      = [searchCex100, searchCex50, searchCex10] ∧
    searchPostProcess [searchCex50, searchCex10, searchCex100] none none
      = [searchCex100, searchCex50, searchCex10] := by
  refine ⟨?_, ?_, ?_⟩
  · simp [searchPostProcess, filterByQuality, filterByPopularity, maxDownloads,
      sortByDownloadsDesc, searchCex100, searchCex50, searchCex10, List.filter]
    norm_num
    rfl
  · simp [searchPostProcess, filterByQuality, filterByPopularity,
      sortByDownloadsDesc, insertByDownloads, searchCex100, searchCex50, searchCex10]
  · simp [searchPostProcess, filterByQuality, filterByPopularity,
      sortByDownloadsDesc, insertByDownloads, searchCex50, searchCex10, searchCex100]

/-! ## Claim C8 -/

/-- C8: each of the six supported GitHub URL forms for owner acme and
repo widget (plain HTTPS, HTTPS with a .git suffix, HTTPS with extra
path segments, git+https, git protocol, and SSH) parses to the pair
(acme, widget), and a URL on an unrelated host parses to none. -/
theorem parse_repository_url_forms :
    parseRepositoryUrl "https://github.com/acme/widget" = some ("acme", "widget") ∧
    parseRepositoryUrl "https://github.com/acme/widget.git" = some ("acme", "widget") ∧
    parseRepositoryUrl "https://github.com/acme/widget/tree/main" = some ("acme", "widget") ∧
    parseRepositoryUrl "git+https://github.com/acme/widget.git" = some ("acme", "widget") ∧
    parseRepositoryUrl "git://github.com/acme/widget.git" = some ("acme", "widget") ∧
    parseRepositoryUrl "git@github.com:acme/widget.git" = some ("acme", "widget") ∧
    parseRepositoryUrl "https://gitlab.com/acme/widget" = none :=
  ⟨by rfl, by rfl, by rfl, by rfl, by rfl, by rfl, by rfl⟩

/-! ## Claim C9 -/

/-- C9 counterexample: an operation that always throws the raw
non-`Error` value boom, run with a budget of 3 retries, propagates the
raw value unchanged after a single invocation; the propagated value is
not the wrapped `Error` form, contradicting the claim that `withRetry`
wraps every thrown non-`Error` value before propagating it. -/
theorem non_error_raw_propagation_counterexample :
    withRetry (fun _ => (.error (.raw "boom") : Except Thrown Nat)) 3
      = (.error (.raw "boom"), 1) ∧
    Thrown.raw "boom" ≠ Thrown.err (.plainError "boom") :=
  ⟨by rfl, by decide⟩

/-- C9 (amended): `withRetry` wraps a thrown non-`Error` value into an
`Error` carrying its string form only when it is thrown on the final
permitted attempt (for instance with a retry budget of 0); while
attempts remain, a thrown non-`Error` value is treated as non-retryable
and propagates raw, unwrapped, after exactly one invocation. -/
theorem non_error_wrapped_only_on_final_attempt (s : String) (maxRetries : Nat) :
    withRetry (fun _ => (.error (.raw s) : Except Thrown Nat)) maxRetries
      = if maxRetries = 0 then (.error (.err (.plainError s)), 1)
        else (.error (.raw s), 1) := by
  cases maxRetries with
  | zero => rfl
  | succ r => simp [withRetry, withRetryGo, retriedInLoop]

/-! ## Claim C10 -/

/-- C10 (implicit): when the existence-check fetch fails with any thrown
value that is not named AbortError (a DNS or connection failure, for
example), `checkPackageExists` swallows the error and resolves to false
after a single attempt, with no retry and no propagated Network error;
consequently the façade returns a normal response with `exists` false
for such a package even though it may actually exist. -/
theorem existence_check_swallows_non_abort_errors
    (packageName : String) (e : Thrown) (h : e.isAbortNamed = false)
    (retryAttempts : Nat) :
    checkPackageExists packageName (fun _ => .reject e) retryAttempts = (.ok false, 1) ∧
    (∀ (jsonLen : PackageInfoResponse → Nat) (c : MemoryCache PackageInfoResponse)
        (now : Nat) (inc incd : Bool) (api : PackageInfoApi),
      validatePackageName packageName = none →
      (MemoryCache.get c now (createCacheKeyPackageInfo packageName "latest")).1 = none →
      api.checkPackageExistsResult = .ok false →
      (getPackageInfo jsonLen c now packageName inc incd api).result
          = .ok (notFoundInfoResponse packageName) ∧
      (notFoundInfoResponse packageName).exists_ = false) := by
  constructor
  · have hfn : ∀ i, checkPackageExistsAttempt packageName (fun _ => .reject e) i
        = .ok false := by
      intro i
      simp [checkPackageExistsAttempt, checkPackageExistsTry, checkPackageExistsCatch, h]
    cases retryAttempts with
    | zero => simp [checkPackageExists, withRetry, withRetryGo, hfn]
    | succ r => simp [checkPackageExists, withRetry, withRetryGo, hfn]
  · intro jsonLen c now inc incd api hval hmiss hnf
    constructor
    · simp only [getPackageInfo, hval]
      rw [hmiss, hnf]
    · rfl

/-- Witness for C10: a connection-failure rejection (not named
AbortError) makes `checkPackageExists` resolve to false in one attempt,
and the ghost-package façade run returns `exists` false. -/
theorem existence_check_swallows_non_abort_errors_witness :
    (Thrown.err (.plainError "getaddrinfo ENOTFOUND api.nuget.org")).isAbortNamed = false ∧
    checkPackageExists "Newtonsoft.Json"
        (fun _ => .reject (.err (.plainError "getaddrinfo ENOTFOUND api.nuget.org"))) 3
      = (.ok false, 1) ∧
    (getPackageInfo ghostJsonLen ghostCache0 0 "ghost-package" true false ghostApi).result
      = .ok (notFoundInfoResponse "ghost-package") := by
  refine ⟨by rfl, ?_, ?_⟩
  · exact (existence_check_swallows_non_abort_errors "Newtonsoft.Json"
      (.err (.plainError "getaddrinfo ENOTFOUND api.nuget.org")) (by rfl) 3).1
  · exact ((existence_check_swallows_non_abort_errors "ghost-package"
      (.raw "unused") (by rfl) 0).2 ghostJsonLen ghostCache0 0 true false ghostApi
      (by rfl) (by rfl) (by rfl)).1

end NugetMcp
